import Mathlib

/- Verification of the yama 3x3 matrix type (include/yama/matrix3x3.hpp).

   The scalar type T of matrix3x3_t<T> is idealized as an exact linear
   ordered field: ℚ for the executable claims, ℝ where trigonometric
   functions appear.  Storage is column-major, exactly as in the source:
   the structure fields are declared in the memory order
   m00 m10 m20 | m01 m11 m21 | m02 m12 m22 (three columns of three rows).

   YAMA_ASSERT_CRIT / YAMA_ASSERT_BAD / YAMA_ASSERT_WARN are purely
   diagnostic macros with no control-flow effect; where a claim is about
   the severity of the diagnostic itself, the check is modelled
   explicitly as a function from the checked condition to the severity
   of the diagnostic it emits. -/

namespace Yama

/-- Column-major 3x3 matrix value type, mirroring `yama::matrix3x3_t<T>`.
Fields are listed in the declaration (= memory) order of the source:
column 0 is `m00 m10 m20`, column 1 is `m01 m11 m21`, column 2 is
`m02 m12 m22`. -/
@[ext]
structure Matrix3x3 (α : Type) where
  m00 : α
  m10 : α
  m20 : α
  m01 : α
  m11 : α
  m21 : α
  m02 : α
  m12 : α
  m22 : α
  deriving DecidableEq, Repr

variable {α : Type} [LinearOrderedField α]

/-- Named constructor `columns` (matrix3x3.hpp lines 41-52): arguments are
column-major values `cr{col}{row}`, stored directly. -/
def Matrix3x3.columns (cr00 cr01 cr02 cr10 cr11 cr12 cr20 cr21 cr22 : α) :
    Matrix3x3 α :=
  ⟨cr00, cr01, cr02, cr10, cr11, cr12, cr20, cr21, cr22⟩

/-- Named constructor `rows` (lines 54-65): arguments are row-major values
`rc{row}{col}`, transposed into column-major storage. -/
def Matrix3x3.rows (rc00 rc01 rc02 rc10 rc11 rc12 rc20 rc21 rc22 : α) :
    Matrix3x3 α :=
  ⟨rc00, rc10, rc20, rc01, rc11, rc21, rc02, rc12, rc22⟩

/-- Named constructor `uniform` (lines 67-74). -/
def Matrix3x3.uniform (s : α) : Matrix3x3 α :=
  Matrix3x3.columns s s s s s s s s s

/-- Named constructor `zero` (lines 76-79). -/
def Matrix3x3.zero : Matrix3x3 α :=
  Matrix3x3.uniform 0

/-- Named constructor `identity` (lines 91-98). -/
def Matrix3x3.identity : Matrix3x3 α :=
  Matrix3x3.columns 1 0 0 0 1 0 0 0 1

/-- The flat column-major memory image of the matrix: what `data()`
(lines 279-287) exposes as 9 contiguous scalars. -/
def Matrix3x3.dataList (a : Matrix3x3 α) : List α :=
  [a.m00, a.m10, a.m20, a.m01, a.m11, a.m21, a.m02, a.m12, a.m22]

/-- Bounds-checked linear element access `at(i)` (lines 289-299): the i-th
scalar of the flat column-major storage.  The `i < 9` precondition
(`YAMA_ASSERT_CRIT`) is encoded in the `Fin 9` index type. -/
def Matrix3x3.atIndex (a : Matrix3x3 α) (i : Fin 9) : α :=
  a.dataList.get ⟨i.val, by simp [Matrix3x3.dataList]⟩

/-- 2D access `m(row, col)` (lines 323-331): `column(col)[row]`, i.e. the
flat element at offset `3*col + row` (`column(i)` is `data() + 3*i`,
lines 311-321). -/
def Matrix3x3.m (a : Matrix3x3 α) (row col : Fin 3) : α :=
  a.atIndex ⟨3 * col.val + row.val, by
    have h1 := col.isLt
    have h2 := row.isLt
    omega⟩

/-- In-place `transpose()` (lines 581-587), functionally: swaps the three
off-diagonal pairs m10↔m01, m20↔m02, m21↔m12. -/
def Matrix3x3.transpose (a : Matrix3x3 α) : Matrix3x3 α :=
  ⟨a.m00, a.m01, a.m02, a.m10, a.m11, a.m12, a.m20, a.m21, a.m22⟩

/-- `determinant()` (lines 589-594), verbatim cofactor expansion. -/
def Matrix3x3.determinant (a : Matrix3x3 α) : α :=
  -(a.m02 * a.m11 * a.m20) + a.m01 * a.m12 * a.m20 + a.m02 * a.m10 * a.m21 -
    a.m00 * a.m12 * a.m21 - a.m01 * a.m10 * a.m22 + a.m00 * a.m11 * a.m22

/-- The cofactor (adjugate) matrix built inside the member `inverse()`
(lines 601-609): entry c{row}{col} is stored at m{row}{col}. -/
def Matrix3x3.cofactorMatrix (a : Matrix3x3 α) : Matrix3x3 α :=
  ⟨-(a.m12 * a.m21) + a.m11 * a.m22,
    a.m12 * a.m20 - a.m10 * a.m22,
    -(a.m11 * a.m20) + a.m10 * a.m21,
    a.m02 * a.m21 - a.m01 * a.m22,
    -(a.m02 * a.m20) + a.m00 * a.m22,
    a.m01 * a.m20 - a.m00 * a.m21,
    -(a.m02 * a.m11) + a.m01 * a.m12,
    a.m02 * a.m10 - a.m00 * a.m12,
    -(a.m01 * a.m10) + a.m00 * a.m11⟩

/-- Member `inverse()` (lines 596-616), functionally: the first component
is the post-call value of `*this` (each cofactor divided by the
determinant of the original matrix, assigned unconditionally, with no
zero check on the determinant), the second is the returned determinant. -/
def Matrix3x3.inverse (a : Matrix3x3 α) : Matrix3x3 α × α :=
  let det := a.determinant
  (⟨(-(a.m12 * a.m21) + a.m11 * a.m22) / det,
    (a.m12 * a.m20 - a.m10 * a.m22) / det,
    (-(a.m11 * a.m20) + a.m10 * a.m21) / det,
    (a.m02 * a.m21 - a.m01 * a.m22) / det,
    (-(a.m02 * a.m20) + a.m00 * a.m22) / det,
    (a.m01 * a.m20 - a.m00 * a.m21) / det,
    (-(a.m02 * a.m11) + a.m01 * a.m12) / det,
    (a.m02 * a.m10 - a.m00 * a.m12) / det,
    (-(a.m01 * a.m10) + a.m00 * a.m11) / det⟩, det)

/-- Compound assignment `operator*=(const matrix3x3_t& b)` (lines 546-563),
functionally: all nine products are computed into temporaries `c..` from
the pre-call values of `*this` and `b` before any element is assigned. -/
def mulAssign (a b : Matrix3x3 α) : Matrix3x3 α :=
  let c00 := a.m00 * b.m00 + a.m01 * b.m10 + a.m02 * b.m20
  let c10 := a.m10 * b.m00 + a.m11 * b.m10 + a.m12 * b.m20
  let c20 := a.m20 * b.m00 + a.m21 * b.m10 + a.m22 * b.m20
  let c01 := a.m00 * b.m01 + a.m01 * b.m11 + a.m02 * b.m21
  let c11 := a.m10 * b.m01 + a.m11 * b.m11 + a.m12 * b.m21
  let c21 := a.m20 * b.m01 + a.m21 * b.m11 + a.m22 * b.m21
  let c02 := a.m00 * b.m02 + a.m01 * b.m12 + a.m02 * b.m22
  let c12 := a.m10 * b.m02 + a.m11 * b.m12 + a.m12 * b.m22
  let c22 := a.m20 * b.m02 + a.m21 * b.m12 + a.m22 * b.m22
  ⟨c00, c10, c20, c01, c11, c21, c02, c12, c22⟩

/-- Free `operator*(matrix, matrix)` (lines 706-720), the linear 3x3
matrix product, verbatim. -/
def matMul (a b : Matrix3x3 α) : Matrix3x3 α :=
  Matrix3x3.columns
    (a.m00 * b.m00 + a.m01 * b.m10 + a.m02 * b.m20)
    (a.m10 * b.m00 + a.m11 * b.m10 + a.m12 * b.m20)
    (a.m20 * b.m00 + a.m21 * b.m10 + a.m22 * b.m20)
    (a.m00 * b.m01 + a.m01 * b.m11 + a.m02 * b.m21)
    (a.m10 * b.m01 + a.m11 * b.m11 + a.m12 * b.m21)
    (a.m20 * b.m01 + a.m21 * b.m11 + a.m22 * b.m21)
    (a.m00 * b.m02 + a.m01 * b.m12 + a.m02 * b.m22)
    (a.m10 * b.m02 + a.m11 * b.m12 + a.m12 * b.m22)
    (a.m20 * b.m02 + a.m21 * b.m12 + a.m22 * b.m22)

/-- Free `operator/(matrix, scalar)` (lines 687-694), element-wise. -/
def divScalar (a : Matrix3x3 α) (s : α) : Matrix3x3 α :=
  Matrix3x3.columns
    (a.m00 / s) (a.m10 / s) (a.m20 / s)
    (a.m01 / s) (a.m11 / s) (a.m21 / s)
    (a.m02 / s) (a.m12 / s) (a.m22 / s)

/-- Free two-argument `inverse(a, out_determinant)` (lines 760-776),
functionally: the pair of the inverse matrix and the determinant written
to the output parameter.  Division by the determinant is unconditional. -/
def inverseWithDet (a : Matrix3x3 α) : Matrix3x3 α × α :=
  let d := a.determinant
  (Matrix3x3.columns
    ((-(a.m12 * a.m21) + a.m11 * a.m22) / d)
    ((a.m12 * a.m20 - a.m10 * a.m22) / d)
    ((-(a.m11 * a.m20) + a.m10 * a.m21) / d)
    ((a.m02 * a.m21 - a.m01 * a.m22) / d)
    ((-(a.m02 * a.m20) + a.m00 * a.m22) / d)
    ((a.m01 * a.m20 - a.m00 * a.m21) / d)
    ((-(a.m02 * a.m11) + a.m01 * a.m12) / d)
    ((a.m02 * a.m10 - a.m00 * a.m12) / d)
    ((-(a.m01 * a.m10) + a.m00 * a.m11) / d), d)

/-- Free one-argument `inverse(a)` (lines 778-783): delegates to the
two-argument form and drops the determinant. -/
def inverse (a : Matrix3x3 α) : Matrix3x3 α :=
  (inverseWithDet a).1

/-- Modelled from the spec: the scalar `close(a, b, epsilon)` helper used
by the matrix-level `close` lives in a header that is not part of the
excerpt; per the spec it is approximate equality against a tolerance:
`|a - b| ≤ epsilon`. -/
def closeS (a b eps : α) : Prop :=
  |a - b| ≤ eps

instance (a b eps : α) : Decidable (closeS a b eps) := by
  unfold closeS; infer_instance

/-- Modelled from the spec: `constants_t<T>::EPSILON()`, the type-specific
default tolerance constant (its defining header is not part of the
excerpt), taken as the small positive rational 1/10000. -/
def EPSILON : ℚ := 1 / 10000

/-- Matrix-level `close(a, b, epsilon)` (lines 637-644): the conjunction
of the nine element-wise scalar `close` tests. -/
def closeMat (a b : Matrix3x3 α) (eps : α) : Prop :=
  closeS a.m00 b.m00 eps ∧ closeS a.m10 b.m10 eps ∧ closeS a.m20 b.m20 eps ∧
  closeS a.m01 b.m01 eps ∧ closeS a.m11 b.m11 eps ∧ closeS a.m21 b.m21 eps ∧
  closeS a.m02 b.m02 eps ∧ closeS a.m12 b.m12 eps ∧ closeS a.m22 b.m22 eps

instance (a b : Matrix3x3 α) (eps : α) : Decidable (closeMat a b eps) := by
  unfold closeMat; infer_instance

/- IEEE-style scalar comparison model.  The matrix comparison operators
(lines 619-635) are instantiated in practice at floating-point element
types, where a NaN element compares unequal to everything, itself
included.  `FP` models such a scalar: an exact number or NaN, with the
primitive `==` / `!=` comparisons as IEEE defines them (any comparison
involving NaN: `==` is false, `!=` is true). -/
inductive FP where
  | num (q : ℚ)
  | nan
  deriving DecidableEq, Repr

/-- IEEE primitive scalar `==`: false whenever either side is NaN. -/
def feq : FP → FP → Bool
  | FP.num a, FP.num b => a == b
  | _, _ => false

/-- IEEE primitive scalar `!=`: true whenever either side is NaN. -/
def fne : FP → FP → Bool
  | FP.num a, FP.num b => a != b
  | _, _ => true

/-- Free `operator==(a, b)` (lines 619-626): conjunction of the nine
element-wise primitive equality comparisons, in source order. -/
def eqMat (a b : Matrix3x3 FP) : Bool :=
  feq a.m00 b.m00 && feq a.m10 b.m10 && feq a.m20 b.m20 &&
  feq a.m01 b.m01 && feq a.m11 b.m11 && feq a.m21 b.m21 &&
  feq a.m02 b.m02 && feq a.m12 b.m12 && feq a.m22 b.m22

/-- Free `operator!=(a, b)` (lines 628-635): disjunction of the nine
element-wise primitive inequality comparisons, unrolled independently of
`operator==`. -/
def neMat (a b : Matrix3x3 FP) : Bool :=
  fne a.m00 b.m00 || fne a.m10 b.m10 || fne a.m20 b.m20 ||
  fne a.m01 b.m01 || fne a.m11 b.m11 || fne a.m21 b.m21 ||
  fne a.m02 b.m02 || fne a.m12 b.m12 || fne a.m22 b.m22

/- Diagnostic severity model.  The spec's three severities map to the
three assertion macros: Critical = YAMA_ASSERT_CRIT, Bad =
YAMA_ASSERT_BAD, Warning = YAMA_ASSERT_WARN.  Each attach function is
modelled by the diagnostic it emits as a function of whether the passed
pointer is null (the asserted condition is the pointer itself). -/
inductive Severity where
  | crit
  | bad
  | warn
  deriving DecidableEq, Repr

/-- `attach_to_ptr(ptr)` (lines 253-263) checks `YAMA_ASSERT_BAD(ptr, ...)`:
a null pointer emits a bad-severity (precondition) diagnostic. -/
def attach_to_ptr_diag (ptrIsNull : Bool) : Option Severity :=
  if ptrIsNull then some Severity.bad else none

/-- `attach_to_array(ptr)` (lines 265-275) checks `YAMA_ASSERT_WARN(ptr, ...)`:
a null pointer emits a warning-severity diagnostic. -/
def attach_to_array_diag (ptrIsNull : Bool) : Option Severity :=
  if ptrIsNull then some Severity.warn else none

/-- `from_ptr(ptr)` (lines 81-89) checks `YAMA_ASSERT_CRIT(ptr, ...)`:
a null pointer emits a critical-severity diagnostic. -/
def from_ptr_diag (ptrIsNull : Bool) : Option Severity :=
  if ptrIsNull then some Severity.crit else none

/- Real-valued section: the rotation constructors use cos/sin/acos and
the vector3_t collaborator.  vector3.hpp and the scalar utilities are
not part of the excerpt; the vector operations below are modelled from
the spec (coordinate accessors, cross/dot products, length,
normalization, an orthogonal-vector query). -/

/-- Modelled from the spec: the 3-component vector collaborator
`yama::vector3_t` (its header is not part of the excerpt). -/
@[ext]
structure vector3_t where
  x : ℝ
  y : ℝ
  z : ℝ

/-- Modelled from the spec: the scalar helper `sq(x) = x * x` used by the
rotation constructors (its header is not part of the excerpt). -/
noncomputable def sq (x : ℝ) : ℝ := x * x

/-- Modelled from the spec: vector dot product. -/
noncomputable def dot (a b : vector3_t) : ℝ := a.x * b.x + a.y * b.y + a.z * b.z

/-- Modelled from the spec: vector cross product. -/
noncomputable def cross (a b : vector3_t) : vector3_t :=
  ⟨a.y * b.z - a.z * b.y, a.z * b.x - a.x * b.z, a.x * b.y - a.y * b.x⟩

/-- Modelled from the spec: vector length. -/
noncomputable def vlength (v : vector3_t) : ℝ := Real.sqrt (dot v v)

/-- Modelled from the spec: component-wise division of a vector by a
scalar (`axis /= axis_length`). -/
noncomputable def vdivs (v : vector3_t) (s : ℝ) : vector3_t := ⟨v.x / s, v.y / s, v.z / s⟩

/-- Modelled from the spec: `yama::normalize`, the vector divided by its
length. -/
noncomputable def normalize (v : vector3_t) : vector3_t := vdivs v (vlength v)

/-- Modelled from the spec: vector negation (`-v`). -/
noncomputable def vneg (v : vector3_t) : vector3_t := ⟨-v.x, -v.y, -v.z⟩

/-- Modelled from the spec: the unit X vector. -/
noncomputable def unit_x : vector3_t := ⟨1, 0, 0⟩

/-- Modelled from the spec: `get_orthogonal()` returns some vector
orthogonal to `v` (the spec only requires orthogonality): here
`(-y, x, 0)` unless both x and y are zero, in which case `(1, 0, 0)`. -/
noncomputable def get_orthogonal (v : vector3_t) : vector3_t :=
  if v.x = 0 ∧ v.y = 0 then ⟨1, 0, 0⟩ else ⟨-v.y, v.x, 0⟩

/-- Modelled from the spec: the type-specific default tolerance
`constants_t<T>::EPSILON()` at element type ℝ. -/
noncomputable def EPSILONR : ℝ := 1 / 10000

/-- Modelled from the spec: vector-level `close`, element-wise
approximate equality. -/
def vclose (a b : vector3_t) (eps : ℝ) : Prop :=
  closeS a.x b.x eps ∧ closeS a.y b.y eps ∧ closeS a.z b.z eps

/-- Modelled from the spec: the linear matrix-vector product `R * v`
(each row of R dotted with v). -/
noncomputable def mulMV (a : Matrix3x3 ℝ) (v : vector3_t) : vector3_t :=
  ⟨a.m00 * v.x + a.m01 * v.y + a.m02 * v.z,
   a.m10 * v.x + a.m11 * v.y + a.m12 * v.z,
   a.m20 * v.x + a.m21 * v.y + a.m22 * v.z⟩

/-- `rotation_naxis(axis, radians)` (lines 131-147): Rodrigues' formula
for a pre-normalized axis, verbatim (the normalization precondition is a
Bad-severity diagnostic with no control-flow effect). -/
noncomputable def rotation_naxis (axis : vector3_t) (radians : ℝ) :
    Matrix3x3 ℝ :=
  let c := Real.cos radians
  let s := Real.sin radians
  let c1 := 1 - c
  Matrix3x3.rows
    (c + c1 * sq axis.x) (c1 * axis.y * axis.x - s * axis.z)
      (c1 * axis.z * axis.x + s * axis.y)
    (c1 * axis.x * axis.y + s * axis.z) (c + c1 * sq axis.y)
      (c1 * axis.z * axis.y - s * axis.x)
    (c1 * axis.x * axis.z - s * axis.y) (c1 * axis.y * axis.z + s * axis.x)
      (c + c1 * sq axis.z)

/-- `rotation_axis(axis, radians)` (lines 149-153): normalizes the axis,
then delegates to `rotation_naxis`. -/
noncomputable def rotation_axis (axis : vector3_t) (radians : ℝ) :
    Matrix3x3 ℝ :=
  rotation_naxis (normalize axis) radians

/-- `rotation_x(radians)` (lines 155-165), verbatim. -/
noncomputable def rotation_x (radians : ℝ) : Matrix3x3 ℝ :=
  let c := Real.cos radians
  let s := Real.sin radians
  Matrix3x3.rows 1 0 0 0 c (-s) 0 s c

/-- The opposite-vectors branch of `rotation_vectors` (lines 219-223):
the `2*o⊗o - 1` rows expression evaluated at the normalized orthogonal
vector `o`. -/
noncomputable def rotation_vectors_opposite (o : vector3_t) : Matrix3x3 ℝ :=
  Matrix3x3.rows
    (2 * sq o.x - 1) (2 * o.y * o.x) (2 * o.z * o.x)
    (2 * o.x * o.y) (2 * sq o.y - 1) (2 * o.z * o.y)
    (2 * o.x * o.z) (2 * o.y * o.z) (2 * sq o.z - 1)

open Classical in
/-- `rotation_vectors(src, target)` (lines 191-226): if the cross product
of the two vectors has length above EPSILON, rotate around its
normalization by `acos(dot)`; otherwise return identity when the vectors
are close, and the reflection-style matrix built from a normalized
orthogonal vector when they are opposite. -/
noncomputable def rotation_vectors (src target : vector3_t) : Matrix3x3 ℝ :=
  if vlength (cross src target) > EPSILONR then
    rotation_naxis (vdivs (cross src target) (vlength (cross src target)))
      (Real.arccos (dot src target))
  else if vclose src target EPSILONR then
    Matrix3x3.identity
  else
    rotation_vectors_opposite (normalize (get_orthogonal src))

/- Theorems. -/

theorem closeS_of_eq {a b eps : α} (hab : a = b) (heps : 0 ≤ eps) :
    closeS a b eps := by
  subst hab
  simpa [closeS] using heps

theorem closeMat_of_eq {a b : Matrix3x3 α} {eps : α} (hab : a = b)
    (heps : 0 ≤ eps) : closeMat a b eps := by
  subst hab
  exact ⟨closeS_of_eq rfl heps, closeS_of_eq rfl heps, closeS_of_eq rfl heps,
    closeS_of_eq rfl heps, closeS_of_eq rfl heps, closeS_of_eq rfl heps,
    closeS_of_eq rfl heps, closeS_of_eq rfl heps, closeS_of_eq rfl heps⟩

/-- Claim C2: the mutating member `inverse()` returns exactly the
determinant of the original matrix, and leaves the matrix equal to the
cofactor/adjugate matrix of the original divided element-wise by that
determinant; the statement holds for every matrix, singular ones
included, because no zero check guards the division. -/
theorem C2_member_inverse_adjugate_div_det (A : Matrix3x3 ℚ) :
    A.inverse = (divScalar A.cofactorMatrix A.determinant, A.determinant) :=
  rfl

/-- Claim C3: the compound assignment `A *= B` leaves A equal to the
non-mutating free-function product `A * B` of the original operands,
including the aliased case `M *= M`, because the nine products are
computed into temporaries before being assigned back. -/
theorem C3_mulAssign_eq_matMul (A B : Matrix3x3 ℚ) :
    mulAssign A B = matMul A B ∧ mulAssign A A = matMul A A :=
  ⟨rfl, rfl⟩

/-- Claim C4: `rows(1,2,3, 4,5,6, 7,8,9)` satisfies `m(0,1) == 2` and
`m(1,0) == 4`: the rows constructor stores its row-major arguments
transposed into column-major storage, so that `m(row,col)` retrieves the
element given at row-major position (row, col). -/
theorem C4_rows_transposition :
    (Matrix3x3.rows (1 : ℚ) 2 3 4 5 6 7 8 9).m 0 1 = 2 ∧
    (Matrix3x3.rows (1 : ℚ) 2 3 4 5 6 7 8 9).m 1 0 = 4 :=
  ⟨rfl, rfl⟩

/-- Claim C5: the determinant of the transpose of any matrix is exactly
equal to the determinant of the matrix. -/
theorem C5_det_transpose (A : Matrix3x3 ℚ) :
    A.transpose.determinant = A.determinant := by
  simp only [Matrix3x3.transpose, Matrix3x3.determinant]
  ring

/-- Claim C8: multiplying any matrix by `identity()` with the linear
matrix product, on either side, yields a matrix exactly equal to the
original. -/
theorem C8_identity_mul (A : Matrix3x3 ℚ) :
    matMul A Matrix3x3.identity = A ∧ matMul Matrix3x3.identity A = A := by
  constructor <;> (ext <;> simp [matMul, Matrix3x3.identity, Matrix3x3.columns])

/-- Claim C9 counterexample: passing a null pointer to `attach_to_ptr`
does NOT fail with a critical-assertion diagnostic: the source checks
`YAMA_ASSERT_BAD(ptr, ...)` (lines 255 and 261), which is the
precondition (bad) severity, so the claim as stated is false. -/
theorem C9_counterexample_ptr_not_crit :
    ¬ (attach_to_ptr_diag true = some Severity.crit ∧
       attach_to_array_diag true = some Severity.warn) := by
  decide

/-- Claim C9 (amended): passing a null pointer to `attach_to_ptr` raises
a bad-severity (precondition) diagnostic — not a critical one — while
passing a null pointer to `attach_to_array` raises only a non-fatal
warning-level diagnostic; the critical severity for a null source is
used by `from_ptr`. -/
theorem C9_attach_diag_severities :
    attach_to_ptr_diag true = some Severity.bad ∧
    attach_to_array_diag true = some Severity.warn ∧
    from_ptr_diag true = some Severity.crit := by
  decide

/-- Claim C10: for every pair of matrices over IEEE-style scalars (NaN
elements included), `operator!=` returns true exactly when `operator==`
returns false: the two independently-unrolled comparisons are logical
negations of each other. -/
theorem C10_ne_is_not_eq (a b : Matrix3x3 FP) :
    neMat a b = !(eqMat a b) := by
  have h : ∀ x y, fne x y = !(feq x y) := by
    intro x y
    cases x <;> cases y <;> simp [feq, fne, bne]
  simp [neMat, eqMat, h, Bool.not_and, Bool.or_assoc]

/-- Claim C1: for every matrix A whose determinant is not close to 0,
multiplying A by the free-function `inverse(A)` with the linear matrix
product, in either order, yields a matrix close (element-wise, within
the default epsilon) to `identity()`. -/
theorem C1_free_inverse_close_identity (A : Matrix3x3 ℚ)
    (h : ¬ closeS A.determinant 0 EPSILON) :
    closeMat (matMul A (inverse A)) Matrix3x3.identity EPSILON ∧
    closeMat (matMul (inverse A) A) Matrix3x3.identity EPSILON := by
  have heps : (0 : ℚ) ≤ EPSILON := by norm_num [EPSILON]
  have hd : A.determinant ≠ 0 := by
    intro h0
    apply h
    unfold closeS
    rw [h0]
    norm_num [EPSILON]
  have hd2 : -(A.m02 * A.m11 * A.m20) + A.m01 * A.m12 * A.m20 +
      A.m02 * A.m10 * A.m21 - A.m00 * A.m12 * A.m21 -
      A.m01 * A.m10 * A.m22 + A.m00 * A.m11 * A.m22 ≠ 0 := by
    simpa [Matrix3x3.determinant] using hd
  have h1 : matMul A (inverse A) = Matrix3x3.identity := by
    ext <;>
      (simp only [matMul, inverse, inverseWithDet, Matrix3x3.identity,
        Matrix3x3.columns, Matrix3x3.determinant]
       field_simp
       ring)
  have h2 : matMul (inverse A) A = Matrix3x3.identity := by
    ext <;>
      (simp only [matMul, inverse, inverseWithDet, Matrix3x3.identity,
        Matrix3x3.columns, Matrix3x3.determinant]
       field_simp
       ring)
  exact ⟨closeMat_of_eq h1 heps, closeMat_of_eq h2 heps⟩

theorem C1_witness :
    (¬ closeS (Matrix3x3.identity : Matrix3x3 ℚ).determinant 0 EPSILON) ∧
    (closeMat (matMul (Matrix3x3.identity : Matrix3x3 ℚ)
        (inverse Matrix3x3.identity)) Matrix3x3.identity EPSILON ∧
      closeMat (matMul (inverse (Matrix3x3.identity : Matrix3x3 ℚ))
        Matrix3x3.identity) Matrix3x3.identity EPSILON) :=
  ⟨by norm_num [closeS, Matrix3x3.identity, Matrix3x3.columns,
      Matrix3x3.determinant, EPSILON],
    C1_free_inverse_close_identity Matrix3x3.identity
      (by norm_num [closeS, Matrix3x3.identity, Matrix3x3.columns,
        Matrix3x3.determinant, EPSILON])⟩

/-- Claim C6: for every angle θ, `rotation_axis` applied to the unit X
vector and θ produces a matrix exactly equal to `rotation_x(θ)`. -/
theorem C6_rotation_axis_unit_x (θ : ℝ) :
    rotation_axis unit_x θ = rotation_x θ := by
  have hnorm : normalize unit_x = unit_x := by
    ext <;> simp [normalize, vdivs, vlength, dot, unit_x]
  rw [rotation_axis, hnorm]
  ext <;> simp [rotation_naxis, rotation_x, unit_x, sq, Matrix3x3.rows]

/-- Claim C7: for every normalized vector v, the matrix R returned by
`rotation_vectors(v, -v)` (the opposite-vectors branch, built as
`2·o⊗o − I` from a normalized vector o orthogonal to v) satisfies
`close(R * v, -v)` and `close(determinant(R), 1)`. -/
theorem C7_rotation_vectors_opposite_spec (v : vector3_t)
    (hv : v.x ^ 2 + v.y ^ 2 + v.z ^ 2 = 1) :
    vclose (mulMV (rotation_vectors v (vneg v)) v) (vneg v) EPSILONR ∧
    closeS (rotation_vectors v (vneg v)).determinant 1 EPSILONR := by
  have heps : (0 : ℝ) ≤ EPSILONR := by norm_num [EPSILONR]
  have hcross : cross v (vneg v) = ⟨0, 0, 0⟩ := by
    ext <;> simp [cross, vneg] <;> ring
  have hng : ¬ vlength (cross v (vneg v)) > EPSILONR := by
    rw [hcross]
    simp [vlength, dot, EPSILONR]
  have hnc : ¬ vclose v (vneg v) EPSILONR := by
    rintro ⟨h1, h2, h3⟩
    simp only [closeS, vneg, EPSILONR, sub_neg_eq_add] at h1 h2 h3
    have b1 := abs_le.mp h1
    have b2 := abs_le.mp h2
    have b3 := abs_le.mp h3
    nlinarith [b1.1, b1.2, b2.1, b2.2, b3.1, b3.2, hv]
  have hdotwv : (get_orthogonal v).x * v.x + (get_orthogonal v).y * v.y +
      (get_orthogonal v).z * v.z = 0 := by
    by_cases hxy : v.x = 0 ∧ v.y = 0
    · simp [get_orthogonal, hxy, hxy.1]
    · simp [get_orthogonal, hxy]
      ring
  have hdotww : 0 < dot (get_orthogonal v) (get_orthogonal v) := by
    by_cases hxy : v.x = 0 ∧ v.y = 0
    · simp [get_orthogonal, hxy, dot]
    · simp only [get_orthogonal, hxy, if_false, dot]
      rcases not_and_or.mp hxy with hx | hy
      · nlinarith [mul_self_pos.mpr hx, mul_self_nonneg v.y]
      · nlinarith [mul_self_pos.mpr hy, mul_self_nonneg v.x]
  have hL2 : vlength (get_orthogonal v) * vlength (get_orthogonal v) =
      dot (get_orthogonal v) (get_orthogonal v) :=
    Real.mul_self_sqrt (le_of_lt hdotww)
  have hLne : vlength (get_orthogonal v) ≠ 0 :=
    ne_of_gt (Real.sqrt_pos.mpr hdotww)
  have hL2x : vlength (get_orthogonal v) * vlength (get_orthogonal v) =
      (get_orthogonal v).x * (get_orthogonal v).x +
      (get_orthogonal v).y * (get_orthogonal v).y +
      (get_orthogonal v).z * (get_orthogonal v).z := by
    rw [hL2]
    simp [dot]
  have hunit : (normalize (get_orthogonal v)).x ^ 2 +
      (normalize (get_orthogonal v)).y ^ 2 +
      (normalize (get_orthogonal v)).z ^ 2 = 1 := by
    simp only [normalize, vdivs]
    field_simp
    linear_combination -hL2x
  have horth : (normalize (get_orthogonal v)).x * v.x +
      (normalize (get_orthogonal v)).y * v.y +
      (normalize (get_orthogonal v)).z * v.z = 0 := by
    simp only [normalize, vdivs]
    field_simp
    linear_combination hdotwv
  have hrw : rotation_vectors v (vneg v) =
      rotation_vectors_opposite (normalize (get_orthogonal v)) := by
    rw [rotation_vectors, if_neg hng, if_neg hnc]
  rw [hrw]
  constructor
  · simp only [vclose, mulMV, rotation_vectors_opposite, Matrix3x3.rows, sq,
      vneg]
    refine ⟨closeS_of_eq ?_ heps, closeS_of_eq ?_ heps, closeS_of_eq ?_ heps⟩
    · linear_combination 2 * (normalize (get_orthogonal v)).x * horth
    · linear_combination 2 * (normalize (get_orthogonal v)).y * horth
    · linear_combination 2 * (normalize (get_orthogonal v)).z * horth
  · refine closeS_of_eq ?_ heps
    simp only [rotation_vectors_opposite, Matrix3x3.rows,
      Matrix3x3.determinant, sq]
    linear_combination 2 * hunit

theorem C7_witness :
    ((vector3_t.mk 1 0 0).x ^ 2 + (vector3_t.mk 1 0 0).y ^ 2 +
      (vector3_t.mk 1 0 0).z ^ 2 = 1) ∧
    (vclose (mulMV (rotation_vectors (vector3_t.mk 1 0 0)
        (vneg (vector3_t.mk 1 0 0))) (vector3_t.mk 1 0 0))
      (vneg (vector3_t.mk 1 0 0)) EPSILONR ∧
     closeS (rotation_vectors (vector3_t.mk 1 0 0)
        (vneg (vector3_t.mk 1 0 0))).determinant 1 EPSILONR) :=
  ⟨by norm_num, C7_rotation_vectors_opposite_spec (vector3_t.mk 1 0 0)
    (by norm_num)⟩

end Yama
